import Mathlib

/-!
# Verification of the llx v1 query-execution runtime (llx/llx_v1.go)

Shallow embedding of the chain-walking executor: the value model (RawData),
the result cache (CacheV1), the dependency graph (CallsV1), chunk evaluation
(runChunk / runFunction / createResource / connectRef), the chain walk
(runChain), forward propagation (triggerChain), block aggregation (the
runBlock callback closure) and teardown (Unregister).

Go mutable state is passed explicitly through an `ExecState` record; the
`sync.Map` / mutex-guarded maps become association lists with last-write-wins
semantics; Go `error` values become an explicit `LErr` type where the
`lumi.NotReadyError` type assertion becomes the `notReadyErr` constructor;
nillable `*RawData` pointers become `Option RawData` where a nil can actually
reach the field.  The external resource provider (`lumi.Runtime`) and the
parts of the repository that are not in the provided source
(`resolveValue`, `args2resourceargsV1`, `handleGlobalV1`,
`runBoundFunctionV1`) are modelled from the spec as pure functions; each such
definition is marked `Modelled from the spec:` in its doc comment.
-/

set_option autoImplicit false

namespace Llx

/-- Go `error` values as seen by the runtime.  `notReadyErr` is
`lumi.NotReadyError` (the `err.(lumi.NotReadyError)` type assertion succeeds
exactly on this constructor); `err` is a generic error (`errors.New`);
`multi` is a `hashicorp/go-multierror` aggregate. -/
inductive LErr where
  | notReadyErr (msg : String)
  | err (msg : String)
  | multi (errs : List LErr)

/-- The `err.(lumi.NotReadyError)` type assertion. -/
def LErr.isNotReady : LErr → Bool
  | .notReadyErr _ => true
  | _ => false

/-- `hashicorp/go-multierror`'s `multierror.Append` as used at
llx_v1.go:273: appends an error onto a possibly-nil accumulated error. -/
def multierrorAppend : Option LErr → LErr → LErr
  | none, e => .multi [e]
  | some (.multi l), e => .multi (l ++ [e])
  | some prev, e => .multi [prev, e]

/-- The `types.Type` values the runtime inspects.  `empty` is the zero value
`types.Type("")`, `unset` is `types.Unset`, `nil` is `types.Nil`, `block` is
`types.Block`; `resource name` is `types.Resource(name)` (so `IsResource`
holds exactly there) and `functionT` is any function type (so `IsFunction`
holds exactly there). -/
inductive Ty where
  | empty
  | nilT
  | unset
  | block
  | boolT
  | intT
  | stringT
  | resource (name : String)
  | functionT
  deriving DecidableEq, Repr

/-- `types.Type.IsResource`. -/
def Ty.isResource : Ty → Bool
  | .resource _ => true
  | _ => false

/-- `types.Type.IsFunction`. -/
def Ty.isFunction : Ty → Bool
  | .functionT => true
  | _ => false

mutual
/-- The `interface{}` payloads the runtime stores in a RawData: scalars,
`lumi.ResourceType` values (identified by their id) and the
`map[string]interface{}` block results whose entries are `*RawData`
(a nil pointer entry is `none`). -/
inductive Val where
  | intV (n : Int)
  | strV (s : String)
  | boolV (b : Bool)
  | resource (id : String)
  | blockMap (m : List (String × Option RawData))

/-- `llx.RawData`: a typed, nullable payload plus an optional error. -/
inductive RawData where
  | mk (typ : Ty) (value : Option Val) (error : Option LErr)
end

/-- The `Type` field of a RawData. -/
def RawData.typ : RawData → Ty
  | .mk t _ _ => t

/-- The `Value` field of a RawData. -/
def RawData.value : RawData → Option Val
  | .mk _ v _ => v

/-- The `Error` field of a RawData. -/
def RawData.error : RawData → Option LErr
  | .mk _ _ e => e

/-- `llx.stepCache`.  `Result` is a `*RawData` and really can be nil (the
block-argument seeding in `runFunctionBlock` stores the incoming argument
pointers verbatim), hence `Option`. -/
structure StepCache where
  Result : Option RawData
  IsStatic : Bool := false

/-- `llx.RawResult`: the payload delivered to the result callback.  `Data`
is a `*RawData` pointer (nil representable). -/
structure RawResult where
  Data : Option RawData
  CodeID : String

/-- First-match association-list lookup; models a Go map read
(`v, ok := m[k]`). -/
def lookupBy {α β : Type} [DecidableEq α] : List (α × β) → α → Option β
  | [], _ => none
  | (k', v) :: rest, k => if k' = k then some v else lookupBy rest k

/-- In-place insert-or-replace on an association list; models a Go map
write (`m[k] = v`). -/
def insertOrReplace {α β : Type} [DecidableEq α] : List (α × β) → α → β → List (α × β)
  | [], k, v => [(k, v)]
  | (k', v') :: rest, k, v =>
      if k' = k then (k, v) :: rest else (k', v') :: insertOrReplace rest k v

/-- `llx.CallsV1`: the dependency graph, a mutex-guarded
`map[int32][]int32`. -/
abbrev CallsV1 := List (Int × List Int)

/-- `CallsV1.Store` (llx_v1.go:27): store a call connection.  Returns
`true` (and leaves the map untouched) if the connection already exists,
otherwise appends `v` to `k`'s edge list and returns `false`. -/
def CallsV1.Store (c : CallsV1) (k v : Int) : Bool × CallsV1 :=
  match lookupBy c k with
  | some calls =>
      if v ∈ calls then (true, c)
      else (false, insertOrReplace c k (calls ++ [v]))
  | none => (false, insertOrReplace c k ([] ++ [v]))

/-- `CallsV1.Load` (llx_v1.go:48). -/
def CallsV1.Load (c : CallsV1) (k : Int) : Option (List Int) :=
  lookupBy c k

/-- `llx.CacheV1`: the result cache, a `sync.Map` from ref to
`*stepCache`.  Stores prepend, loads take the first (latest) match:
last write wins. -/
abbrev CacheV1 := List (Int × StepCache)

/-- `CacheV1.Store` (llx_v1.go:59): unconditional overwrite. -/
def CacheV1.Store (c : CacheV1) (k : Int) (v : StepCache) : CacheV1 :=
  (k, v) :: c

/-- `CacheV1.Load` (llx_v1.go:62). -/
def CacheV1.Load (c : CacheV1) (k : Int) : Option StepCache :=
  lookupBy c k

namespace Exec

/-- `llx.Primitive` as the runtime consumes it: a type tag, an optional
literal payload, and — for reference-typed primitives — the ref returned by
`RefV1` (Go returns `(0, false)` when the primitive is not a ref; the
`Option` models the `ok` flag). -/
structure Primitive where
  typ : Ty
  value : Option Val := none
  refv : Option Int := none

/-- `Primitive.RefV1`. -/
def Primitive.RefV1 (p : Primitive) : Option Int := p.refv

/-- `llx.Function` (the call descriptor carried by a function chunk):
its type, the deprecated v5 receiver binding (0 = unbound/global) and the
argument primitives. -/
structure Function where
  typ : Ty := Ty.empty
  deprecatedV5Binding : Int := 0
  args : List Primitive := []

/-- `emptyFunction` (the zero `llx.Function` used when a function chunk
carries a nil `Function` pointer). -/
def emptyFunction : Function := {}

/-- The `Chunk.Call` discriminator (`Chunk_PRIMITIVE`, `Chunk_FUNCTION`,
`Chunk_PROPERTY`). -/
inductive ChunkCall where
  | primitive
  | function
  | property
  deriving DecidableEq, Repr

/-- `llx.Chunk`: one operation of the compiled program. -/
structure Chunk where
  call : ChunkCall
  id : String := ""
  primitive : Option Primitive := none
  function : Option Function := none

/-- `llx.CodeV1`: the compiled program.  `Code` is the 1-based chunk list
(entries are `*Chunk` pointers, hence `Option`); `Functions` are the
sub-programs referenced by block calls (also nillable). -/
inductive CodeV1 where
  | mk (codeList : List (Option Chunk)) (entrypoints : List Int)
      (datapoints : List Int) (checksums : List (Int × String))
      (functions : List (Option CodeV1)) (singleValue : Bool)

/-- The `Code` field. -/
def CodeV1.Code : CodeV1 → List (Option Chunk)
  | .mk c _ _ _ _ _ => c

/-- The `Entrypoints` field. -/
def CodeV1.Entrypoints : CodeV1 → List Int
  | .mk _ e _ _ _ _ => e

/-- The `Datapoints` field. -/
def CodeV1.Datapoints : CodeV1 → List Int
  | .mk _ _ d _ _ _ => d

/-- The `Checksums` field (`map[int32]string`). -/
def CodeV1.Checksums : CodeV1 → List (Int × String)
  | .mk _ _ _ cs _ _ => cs

/-- The `Functions` field. -/
def CodeV1.Functions : CodeV1 → List (Option CodeV1)
  | .mk _ _ _ _ f _ => f

/-- The `SingleValue` field. -/
def CodeV1.SingleValue : CodeV1 → Bool
  | .mk _ _ _ _ _ s => s

/-- The mutable state of one `LeiseExecutorV1`: the result cache, the
step tracker (a `CacheV1` storing nil pointers, i.e. used as a set of
refs), the dependency graph and the ordered log of result-callback
invocations made so far.  `panicked` records the two explicit `panic`
calls of the source. -/
structure ExecState where
  cache : CacheV1 := []
  stepTracker : List Int := []
  calls : CallsV1 := []
  callbacks : List RawResult := []
  panicked : Bool := false

/-- The outcome triple `(res *RawData, dref int32, err error)` shared by
all evaluation functions. -/
abbrev EvalRes := Option RawData × Int × Option LErr

/-- The immutable part of a `LeiseExecutorV1`: the program, the
callback record (`callbackPoints`), the property bindings, and the
external collaborators.  `createResourceExt` is the resource provider's
`runtime.CreateResource` (§6), returning the created resource's id or an
error (possibly not-ready).  `globalHandlers` is `handleGlobalV1`
(`Modelled from the spec:` the global function dispatch table, §9 — not in
the provided source): `none` = name is not a global function (fall back to
resource creation), `some none` = registered but nil handler, `some (some h)`
= handler, modelled as a pure function of the call.  `runBoundFunction` is
`runBoundFunctionV1` (`Modelled from the spec:` built-in operations on a
bound receiver value, §4.6 — not in the provided source), modelled as a
pure function of the receiver value, chunk and ref. -/
structure LeiseExecutorV1 where
  code : CodeV1
  callbackPoints : List (Int × String)
  props : List (String × Primitive) := []
  createResourceExt : String → List RawData → Except LErr String
  globalHandlers : String → Option (Option (Function → Int → EvalRes)) := fun _ => none
  runBoundFunction : RawData → Chunk → Int → EvalRes := fun _ _ _ => (none, 0, none)

/-- `errorResult` (`Modelled from the spec:` the error-result constructor
used by `runChain`/`NoRun` is not in the provided source; per §7 the
callback carries an error value tagged with the codeID). -/
def errorResult (e : LErr) (codeID : String) : RawResult :=
  ⟨some ⟨Ty.empty, none, some e⟩, codeID⟩

/-- `errorResultMsg` = `errorResult (errors.New msg)`. -/
def errorResultMsg (msg : String) (codeID : String) : RawResult :=
  errorResult (LErr.err msg) codeID

/-- `connectRef` (llx_v1.go:361): connect `src → dst` in the dependency
graph; if the edge already existed someone else registered it, halt;
otherwise the caller must run `src` next. -/
def connectRef (st : ExecState) (src dst : Int) : EvalRes × ExecState :=
  let out := CallsV1.Store st.calls src dst
  if out.1 then ((none, 0, none), { st with calls := out.2 })
  else ((none, src, none), { st with calls := out.2 })

/-- `resolveValue` (`Modelled from the spec:` not in the provided source).
Literal primitives resolve to their typed value (§4.5 "literal
resolution"); ref-typed primitives read the receiver's cache entry or, if
absent, register a dependency edge and ask to rerun the receiver
(§4.6). -/
def resolveValue (st : ExecState) (prim : Primitive) (ref : Int) :
    EvalRes × ExecState :=
  match prim.refv with
  | some r =>
      match CacheV1.Load st.cache r with
      | some sc =>
          match sc.Result with
          | some rd => ((some rd, 0, none), st)
          | none => ((none, 0, none), st)
      | none => connectRef st r ref
  | none => ((some ⟨prim.typ, prim.value, none⟩, 0, none), st)

/-- `args2resourceargsV1` (`Modelled from the spec:` not in the provided
source).  Resolves each argument primitive of a resource-creation call
(§4.7 "resolved arguments"), propagating the first deferral ref or error
encountered. -/
def args2resourceargsV1 (st : ExecState) (ref : Int) :
    List Primitive → (List RawData × Int × Option LErr) × ExecState
  | [] => (([], 0, none), st)
  | p :: ps =>
      let out := resolveValue st p ref
      match out.1 with
      | (some r, 0, none) =>
          let rest := args2resourceargsV1 out.2 ref ps
          ((r :: rest.1.1, rest.1.2.1, rest.1.2.2), rest.2)
      | (_, dref, e) => (([], dref, e), out.2)

/-- `createResource` (llx_v1.go:306): ask the provider for a resource.
On success the resource is cached as static; on failure the error is
cached as a static error value unless it is a not-ready error (which is
never cached so that a later retry can succeed). -/
def createResource (c : LeiseExecutorV1) (st : ExecState) (name : String)
    (f : Function) (ref : Int) : EvalRes × ExecState :=
  let out := args2resourceargsV1 st ref f.args
  let args := out.1.1
  let rref := out.1.2.1
  let errOpt := out.1.2.2
  let st1 := out.2
  if errOpt.isSome ∨ rref ≠ 0 then ((none, rref, errOpt), st1)
  else
    match c.createResourceExt name args with
    | .error e =>
        -- in case it's not something that requires later loading, store
        -- the error so that consecutive steps can retrieve it cached
        let st2 :=
          if e.isNotReady then st1
          else { st1 with cache :=
                  CacheV1.Store st1.cache ref ⟨some ⟨Ty.resource name, none, some e⟩, true⟩ }
        ((none, 0, some e), st2)
    | .ok resource =>
        let res : RawData := ⟨Ty.resource name, some (Val.resource resource), none⟩
        ((some res, 0, none),
         { st1 with cache := CacheV1.Store st1.cache ref ⟨some res, true⟩ })

/-- `runGlobalFunction` (llx_v1.go:342): dispatch to a registered global
handler (caching any immediate result, non-static) or fall back to
resource creation. -/
def runGlobalFunction (c : LeiseExecutorV1) (st : ExecState) (chunk : Chunk)
    (f : Function) (ref : Int) : EvalRes × ExecState :=
  match c.globalHandlers chunk.id with
  | some none =>
      ((none, 0, some (LErr.err ("found function " ++ chunk.id ++
        " but no handler. this should not happen and points to an implementation error"))), st)
  | some (some h) =>
      let out := h f ref
      let st' :=
        match out.1 with
        | some r => { st with cache := CacheV1.Store st.cache ref ⟨some r, false⟩ }
        | none => st
      (out, st')
  | none => createResource c st chunk.id f ref

/-- `runFunction` (llx_v1.go:372): global calls dispatch by name; bound
calls whose receiver has no cached value register a dependency edge; a
cached receiver error is copied to the dependent ref and propagated; a
cached receiver value dispatches to the bound-function logic.  A cached
entry with a nil `Result` would make the Go code dereference a nil
pointer; this is recorded as `panicked`. -/
def runFunction (c : LeiseExecutorV1) (st : ExecState) (chunk : Chunk)
    (ref : Int) : EvalRes × ExecState :=
  let f := chunk.function.getD emptyFunction
  if f.deprecatedV5Binding = 0 then
    runGlobalFunction c st chunk f ref
  else
    match CacheV1.Load st.cache f.deprecatedV5Binding with
    | none => connectRef st f.deprecatedV5Binding ref
    | some res =>
        match res.Result with
        | none => ((none, 0, none), { st with panicked := true })
        | some rd =>
            match rd.error with
            | some e =>
                ((none, 0, some e),
                 { st with cache := CacheV1.Store st.cache ref ⟨some rd, false⟩ })
            | none => (c.runBoundFunction rd chunk ref, st)

/-- `runChunk` (llx_v1.go:397): evaluate one chunk by its call kind. -/
def runChunk (c : LeiseExecutorV1) (st : ExecState) (chunk : Chunk)
    (ref : Int) : EvalRes × ExecState :=
  match chunk.call with
  | .primitive =>
      let out := resolveValue st (chunk.primitive.getD ⟨Ty.empty, none, none⟩) ref
      let res := out.1.1
      let dref := out.1.2.1
      let e := out.1.2.2
      let st' := out.2
      let st'' :=
        match res with
        | some r => { st' with cache := CacheV1.Store st'.cache ref ⟨some r, false⟩ }
        | none =>
            match e with
            | some e' =>
                { st' with cache :=
                    CacheV1.Store st'.cache ref ⟨some ⟨Ty.empty, none, some e'⟩, false⟩ }
            | none => st'
      ((res, dref, e), st'')
  | .function => runFunction c st chunk ref
  | .property =>
      match lookupBy c.props chunk.id with
      | none =>
          ((none, 0, some (LErr.err ("cannot find property '" ++ chunk.id ++ "'"))), st)
      | some property =>
          let out := resolveValue st property ref
          let res := out.1.1
          let dref := out.1.2.1
          let e := out.1.2.2
          let st' := out.2
          if dref ≠ 0 ∨ e.isSome then ((res, dref, e), st')
          else
            -- the Go code stores stepCache{Result: res} unconditionally
            -- here; res is nil only in the deferred (dref ≠ 0) and
            -- stalled cases which return above, so the stored Result is
            -- the resolved value
            ((res, dref, e),
             { st' with cache := CacheV1.Store st'.cache ref ⟨res, false⟩ })

/-- `runRef` (llx_v1.go:431): look up the chunk at a 1-based ref and run
it.  A nil chunk entry yields the "chunk that doesn't exist" error; an
out-of-range index (a Go slice-bounds panic) is modelled by the same
error. -/
def runRef (c : LeiseExecutorV1) (st : ExecState) (ref : Int) :
    EvalRes × ExecState :=
  match (if 1 ≤ ref then c.code.Code.get? (ref - 1).toNat else none) with
  | some (some chunk) => runChunk c st chunk ref
  | _ =>
      ((none, 0, some (LErr.err ("Called a chunk that doesn't exist, ref = " ++
        toString ref))), st)

/-- Lines 477–497 of `runChain`: deliver the current step's result or
error to the callback (when the ref is a callback point) and cache a
non-not-ready error (unless an entry is already cached at the ref).
Factored out of the loop body for reuse in statements; `res`/`err` are
the step's outcome. -/
def runChainCallbacks (c : LeiseExecutorV1) (st : ExecState) (curRef : Int)
    (res : Option RawData) (err : Option LErr) : ExecState :=
  match res with
  | some r =>
      match lookupBy c.callbackPoints curRef with
      | some codeID => { st with callbacks := st.callbacks ++ [⟨some r, codeID⟩] }
      | none => st
  | none =>
      match err with
      | some e =>
          let st1 :=
            match lookupBy c.callbackPoints curRef with
            | some codeID => { st with callbacks := st.callbacks ++ [errorResult e codeID] }
            | none => st
          if e.isNotReady then st1
          else
            match CacheV1.Load st1.cache curRef with
            | some _ => st1
            | none =>
                { st1 with cache :=
                    CacheV1.Store st1.cache curRef ⟨some ⟨Ty.unset, none, some e⟩, false⟩ }
      | none => st

/-- Lines 462–469 of `runChain`: try the cache first (so pre-loaded block
bindings are read back), otherwise evaluate the chunk at the ref. -/
def runStepEval (c : LeiseExecutorV1) (st : ExecState) (curRef : Int) :
    EvalRes × ExecState :=
  match CacheV1.Load st.cache curRef with
  | some cached => ((cached.Result, 0, none), st)
  | none => runRef c st curRef

/-- The `for nextRef != 0` loop of `runChain` (llx_v1.go:442), with an
explicit fuel bound on the number of iterations (the Go loop can cycle
through the dependency graph).  Each iteration marks the current ref in
the step tracker, evaluates (cache first), halts silently when the step
yields neither result, follow-up ref nor error, delivers
callbacks/caches errors, and then advances: explicit next ref, else the
first dependency-graph successor (queueing the rest), else the FIFO
remainder queue, else termination. -/
def runChainLoop (c : LeiseExecutorV1) :
    Nat → ExecState → Int → List Int → ExecState
  | 0, st, _, _ => st
  | fuel + 1, st, nextRef, remaining =>
      if nextRef = 0 then st
      else
        let curRef := nextRef
        let st1 := { st with stepTracker := curRef :: st.stepTracker }
        let out := runStepEval c st1 curRef
        let res := out.1.1
        let nref := out.1.2.1
        let err := out.1.2.2
        let st2 := out.2
        -- stop this chain of execution, if it didn't return anything: we
        -- need more data, i.e. an event to provide info
        if res.isNone ∧ nref = 0 ∧ err.isNone then st2
        else
          let st3 := runChainCallbacks c st2 curRef res err
          if nref ≠ 0 then runChainLoop c fuel st3 nref remaining
          else
            match (CallsV1.Load st3.calls curRef).getD [] with
            | n :: rest => runChainLoop c fuel st3 n (remaining ++ rest)
            | [] =>
                match remaining with
                | [] => st3
                | n :: rest => runChainLoop c fuel st3 n rest

/-- `runChain` (llx_v1.go:442): walk the chain starting at a ref with an
empty remainder queue. -/
def runChain (c : LeiseExecutorV1) (fuel : Nat) (st : ExecState)
    (start : Int) : ExecState :=
  runChainLoop c fuel st start []

/-- Descending insertion used by `Run`'s sort. -/
def sortDescInsert (x : Int) : List Int → List Int
  | [] => [x]
  | y :: ys => if y ≤ x then x :: y :: ys else y :: sortDescInsert x ys

/-- `sort.Slice(refs, func(i, j int) bool { return refs[i] > refs[j] })`:
sort the collected refs in descending numeric order. -/
def sortDesc : List Int → List Int
  | [] => []
  | x :: xs => sortDescInsert x (sortDesc xs)

/-- The body of `Run`'s loop (llx_v1.go:160): skip a ref already present
in the step tracker, otherwise walk its chain. -/
def runEntry (c : LeiseExecutorV1) (fuel : Nat) (s : ExecState)
    (ref : Int) : ExecState :=
  if ref ∈ s.stepTracker then s else runChain c fuel s ref

/-- `Run` (llx_v1.go:150): collect every ref of the callback record, sort
descending, and enter the chain walk at each ref not already tracked. -/
def Run (c : LeiseExecutorV1) (fuel : Nat) (st : ExecState) : ExecState :=
  let refs := sortDesc (c.callbackPoints.map (·.1))
  refs.foldl (runEntry c fuel) st

/-- `triggerChain` (llx_v1.go:525): a ref got a (new) value.  Deliver it
to the ref's callback point if any; then re-enter the chain walk at every
dependency-graph successor; with no successors registered, fall back to
re-reading the cache and delivering it (or a lookup-error result) to the
callback.  An empty (non-nil) successor list is the source's `panic`. -/
def triggerChain (c : LeiseExecutorV1) (fuel : Nat) (st : ExecState)
    (ref : Int) (data : Option RawData) : ExecState :=
  let st1 :=
    match lookupBy c.callbackPoints ref with
    | some codeID => { st with callbacks := st.callbacks ++ [⟨data, codeID⟩] }
    | none => st
  match CallsV1.Load st1.calls ref with
  | some nxt =>
      match nxt with
      | [] => { st1 with panicked := true }
      | _ => nxt.foldl (fun s r => runChain c fuel s r) st1
  | none =>
      let codeID := (lookupBy c.callbackPoints ref).getD ""
      match CacheV1.Load st1.cache ref with
      | none =>
          { st1 with callbacks := st1.callbacks ++
              [errorResultMsg ("exec> cannot find results to chunk reference " ++
                toString ref) codeID] }
      | some res =>
          { st1 with callbacks := st1.callbacks ++ [⟨res.Result, codeID⟩] }

/- ### Block (closure) evaluation -/

/-- One collection pass of `NewExecutorV1` (llx_v1.go:119 and 131): each
listed ref must have a non-empty checksum and be ≥ 1; valid refs are
entered into the callback record (a map write, so a duplicate ref
overwrites). -/
def collectPoints (checksums : List (Int × String)) (kind : String) :
    List Int → List (Int × String) → Except LErr (List (Int × String))
  | [], acc => .ok acc
  | r :: rest, acc =>
      let id := (lookupBy checksums r).getD ""
      if id = "" then
        .error (LErr.err ("llx.executor> cannot execute with invalid ref ID in " ++ kind))
      else if r < 1 then
        .error (LErr.err ("llx.executor> cannot execute with invalid ref number in " ++ kind))
      else collectPoints checksums kind rest (insertOrReplace acc r id)

/-- `NewExecutorV1` (llx_v1.go:93), reduced to its observable output: the
validation sequence and the resulting callback record (entrypoints first,
then datapoints), failing when the runtime or code is missing, a ref is
invalid, or the callback record ends up empty. -/
def NewExecutorV1 (code : Option CodeV1) (runtimeOk : Bool) :
    Except LErr (List (Int × String)) :=
  if ¬ runtimeOk then .error (LErr.err "cannot exec leise without a runtime")
  else
    match code with
    | none => .error (LErr.err "cannot RunChunky without code")
    | some code =>
        match collectPoints code.Checksums "entrypoint" code.Entrypoints [] with
        | .error e => .error e
        | .ok cps1 =>
            match collectPoints code.Checksums "datapoint" code.Datapoints cps1 with
            | .error e => .error e
            | .ok cps2 =>
                if cps2.length = 0 then
                  .error (LErr.err "llx.executor> no callback points found")
                else .ok cps2

/-- The child executor's cache seeded by `runFunctionBlock`
(llx_v1.go:218): argument `i` (0-based) is stored at ref `i+1` as a
static value — the argument pointers are stored verbatim, so a nil
argument seeds a nil `Result`. -/
def seedCache : Int → List (Option RawData) → CacheV1
  | _, [] => []
  | i, a :: rest => CacheV1.Store (seedCache (i + 1) rest) i ⟨a, true⟩

/-- The spawn of a child block executor: the seeded arguments, the
sub-program and its computed callback record.  `runFunctionBlock`
synchronously constructs and runs the child executor whose callback
closure mutates the parent (modelled by `runBlockCb`); the spawn record
is returned to keep the child execution a separate, explicitly-modelled
step instead of an inlined mutual recursion. -/
structure BlockSpawn where
  fargs : List (Option RawData)
  seeded : CacheV1
  sub : CodeV1
  childPoints : List (Int × String)

/-- `runFunctionBlock` (llx_v1.go:211): construct the child executor
(validation per `NewExecutorV1`), seed its cache with the arguments as
static values at refs 1..N, and run it.  Returns the constructor error,
or the spawn record. -/
def runFunctionBlock (args : List (Option RawData)) (code : Option CodeV1) :
    Option LErr × Option BlockSpawn :=
  match code with
  | none => (some (LErr.err "cannot RunChunky without code"), none)
  | some sub =>
      match NewExecutorV1 (some sub) true with
      | .error e => (some e, none)
      | .ok cps =>
          (none, some { fargs := args, seeded := seedCache 1 args, sub := sub,
                        childPoints := cps })

/-- The argument-resolution loop of `runBlock` (llx_v1.go:254): resolve
each argument primitive, returning early with the triple `(a, b, c)` when
an argument defers (`b ≠ 0`) or errors; otherwise append the resolved
pointer (nil included) to the argument list. -/
def resolveArgsList (st : ExecState) (ref : Int) :
    List Primitive → Except EvalRes (List (Option RawData)) × ExecState
  | [] => (.ok [], st)
  | p :: ps =>
      let out := resolveValue st p ref
      if out.1.2.2.isSome ∨ out.1.2.1 ≠ 0 then (.error out.1, out.2)
      else
        let rest := resolveArgsList out.2 ref ps
        (match rest.1 with
         | .ok l => .ok (out.1.1 :: l)
         | .error e => .error e, rest.2)

/-- The body of `runBlock` after the nil-binding short circuit
(llx_v1.go:235–303): validate the function primitive, fetch the
sub-program (an out-of-range `Functions[fref-1]` index — a Go slice
panic — is modelled like the nil-function error), resolve the receiver
and arguments, and spawn the child executor. -/
def runBlockBody (c : LeiseExecutorV1) (st : ExecState) (bind : Option RawData)
    (functionRef : Primitive) (args : List Primitive) (ref : Int) :
    (EvalRes × ExecState) × Option BlockSpawn :=
  if ¬ functionRef.typ.isFunction then
    (((none, 0, some (LErr.err "called block with wrong function type")), st), none)
  else
    match functionRef.RefV1 with
    | none =>
        (((none, 0, some (LErr.err "cannot retrieve function reference on block call")), st),
         none)
    | some fref =>
        match (if 1 ≤ fref then (c.code.Functions.get? (fref - 1).toNat).getD none
               else none) with
        | none => (((none, 0, some (LErr.err "block function is nil")), st), none)
        | some fn =>
            let binit : List (Option RawData) :=
              match bind with
              | some b => [some b]
              | none => []
            let outa := resolveArgsList st ref args
            match outa.1 with
            | .error out => ((out, outa.2), none)
            | .ok fargsArgs =>
                let outf := runFunctionBlock (binit ++ fargsArgs) (some fn)
                (((none, 0, outf.1), outa.2), outf.2)

/-- `runBlock` (llx_v1.go:229): a non-nil receiver whose payload is nil
(and whose type is not Nil) short-circuits to a typed null without
touching the sub-program; otherwise the block body runs. -/
def runBlock (c : LeiseExecutorV1) (st : ExecState) (bind : Option RawData)
    (functionRef : Primitive) (args : List Primitive) (ref : Int) :
    (EvalRes × ExecState) × Option BlockSpawn :=
  match bind with
  | some b =>
      if b.value.isNone ∧ b.typ ≠ Ty.nilT then
        (((some ⟨b.typ, none, none⟩, 0, none), st), none)
      else runBlockBody c st (some b) functionRef args ref
  | none => runBlockBody c st none functionRef args ref

/-- The child-callback closure of `runBlock` (llx_v1.go:263–301).  State
threaded explicitly: the accumulated per-codeID result map, the
accumulated error, and the parent cache.  The returned `Option (Option
RawData)` is the `triggerChain(ref, data)` invocation the closure makes
(`none` = no trigger) — `triggerChain` itself is modelled separately.
For the single-value case the result is cached (non-static) and the
chain triggered every time.  For the multi-value case: a first-seen
codeID carrying an error is merged into the accumulated error; the
result is entered into the map (overwriting a duplicate codeID); once
the count of distinct codeIDs equals entrypoints+datapoints of the
sub-program, the receiver is added under the reserved key "_" (when the
receiver is a resource-typed resource value), and the composite block
value is cached as static and triggered.  (A nil `res.Data` would make
the Go closure dereference nil at `res.Data.Error`; no child callback
delivers one, and it is modelled as "no error".) -/
def runBlockCb (fn : CodeV1) (bind : Option RawData) (ref : Int)
    (blockResult : List (String × Option RawData)) (anyError : Option LErr)
    (cache : CacheV1) (res : RawResult) :
    List (String × Option RawData) × Option LErr × CacheV1 × Option (Option RawData) :=
  if fn.SingleValue then
    (blockResult, anyError, CacheV1.Store cache ref ⟨res.Data, false⟩, some res.Data)
  else
    let dataErr :=
      match res.Data with
      | some d => d.error
      | none => none
    let anyError' :=
      if (lookupBy blockResult res.CodeID).isNone then
        match dataErr with
        | some e => some (multierrorAppend anyError e)
        | none => anyError
      else anyError
    let blockResult1 := insertOrReplace blockResult res.CodeID res.Data
    let expectedCnt := fn.Entrypoints.length + fn.Datapoints.length
    if blockResult1.length = expectedCnt then
      let blockResult2 :=
        match bind with
        | some b =>
            if b.typ.isResource then
              match b.value with
              | some (Val.resource rr) =>
                  insertOrReplace blockResult1 "_" (some ⟨b.typ, some (Val.resource rr), none⟩)
              | _ => blockResult1
            else blockResult1
        | none => blockResult1
      let data : RawData := ⟨Ty.block, some (Val.blockMap blockResult2), anyError'⟩
      (blockResult2, anyError', CacheV1.Store cache ref ⟨some data, true⟩, some (some data))
    else (blockResult1, anyError', cache, none)

/- ### Teardown (`Unregister`) -/

/-- The teardown view of a `LeiseExecutorV1` (llx_v1.go:181): whether its
callback has been replaced by the decommissioned no-op, the outcome the
provider's `runtime.Unregister` reports for each watcher id the executor
registered (external collaborator, modelled as data), and the owned child
block executors. -/
inductive ExecNode where
  | mk (callbackDecommissioned : Bool)
      (watchResults : List (String × Option LErr))
      (children : List ExecNode)

mutual
/-- `Unregister` (llx_v1.go:181): replace the callback with a no-op,
recursively unregister every child block executor, cancel every watch —
collecting errors rather than stopping — and return the fixed
"multiple errors unregistering" error exactly when the collected error
list is non-empty. -/
def Unregister : ExecNode → ExecNode × Option LErr
  | .mk _ ws children =>
      let outs := UnregisterList children
      let errorList := outs.2 ++ ws.filterMap (·.2)
      (.mk true ws outs.1,
       if errorList.length > 0 then some (LErr.err "multiple errors unregistering")
       else none)

/-- The `for idx := range c.blockExecutors` loop of `Unregister`: every
child is unregistered (even after earlier failures) and each non-nil
returned error is appended to the error list. -/
def UnregisterList : List ExecNode → List ExecNode × List LErr
  | [] => ([], [])
  | c :: cs =>
      let o := Unregister c
      let rest := UnregisterList cs
      (o.1 :: rest.1,
       (match o.2 with
        | some e => [e]
        | none => []) ++ rest.2)
end

mutual
/-- Every executor in the tree has had its callback replaced by the
decommissioned no-op. -/
def allDecommissioned : ExecNode → Bool
  | .mk d _ children => d && allDecommissionedList children

def allDecommissionedList : List ExecNode → Bool
  | [] => true
  | c :: cs => allDecommissioned c && allDecommissionedList cs
end

mutual
/-- Some teardown step in the tree fails: a watch cancellation reports an
error, or (recursively) a child's `Unregister` returns one. -/
def anyFailure : ExecNode → Bool
  | .mk _ ws children => anyFailureList children || ws.any (fun p => p.2.isSome)

def anyFailureList : List ExecNode → Bool
  | [] => false
  | c :: cs => anyFailure c || anyFailureList cs
end

end Exec

end Llx

namespace Llx

/- ### C3 helper lemmas -/

theorem lookupBy_insertOrReplace_self {α β : Type} [DecidableEq α]
    (m : List (α × β)) (k : α) (v : β) :
    lookupBy (insertOrReplace m k v) k = some v := by
  induction m with
  | nil => simp [insertOrReplace, lookupBy]
  | cons p rest ih =>
      obtain ⟨k', v'⟩ := p
      by_cases h : k' = k
      · simp [insertOrReplace, lookupBy, h]
      · simp [insertOrReplace, lookupBy, h, ih]

/-- **C3** — `Connect` (= `CallsV1.Store`) is idempotent edge registration:
if the pair `(a, b)` is already stored it returns `true` and changes
nothing; a first call appends `b` to `a`'s edge list and returns `false`;
and after two consecutive `Connect(a, b)` calls the edge list for `a`
contains exactly one occurrence of `b`. -/
theorem C3_connect_dedup (m : CallsV1) (a b : Int) :
    (b ∈ (CallsV1.Load m a).getD [] → CallsV1.Store m a b = (true, m)) ∧
    (b ∉ (CallsV1.Load m a).getD [] →
      (CallsV1.Store m a b).1 = false ∧
      (CallsV1.Load (CallsV1.Store m a b).2 a).getD [] =
        (CallsV1.Load m a).getD [] ++ [b]) ∧
    (b ∉ (CallsV1.Load m a).getD [] →
      ((CallsV1.Load (CallsV1.Store (CallsV1.Store m a b).2 a b).2 a).getD []).count b
        = 1) := by
  have hfresh : b ∉ (CallsV1.Load m a).getD [] →
      (CallsV1.Store m a b).1 = false ∧
      (CallsV1.Load (CallsV1.Store m a b).2 a).getD [] =
        (CallsV1.Load m a).getD [] ++ [b] := by
    intro hb
    cases hm : lookupBy m a with
    | none =>
        refine ⟨?_, ?_⟩
        · simp [CallsV1.Store, hm]
        · simp [CallsV1.Store, CallsV1.Load, hm, lookupBy_insertOrReplace_self]
    | some calls =>
        have hb' : b ∉ calls := by
          simpa [CallsV1.Load, hm] using hb
        refine ⟨?_, ?_⟩
        · simp [CallsV1.Store, hm, hb']
        · simp [CallsV1.Store, CallsV1.Load, hm, hb', lookupBy_insertOrReplace_self]
  refine ⟨?_, hfresh, ?_⟩
  · intro hb
    cases hm : lookupBy m a with
    | none => simp [CallsV1.Load, hm] at hb
    | some calls =>
        have hb' : b ∈ calls := by
          simpa [CallsV1.Load, hm] using hb
        simp [CallsV1.Store, hm, hb']
  · intro hb
    obtain ⟨h1, h2⟩ := hfresh hb
    -- after the first store, b is in the edge list, so the second store
    -- is a no-op
    set m1 := (CallsV1.Store m a b).2 with hm1
    have hmem : b ∈ (CallsV1.Load m1 a).getD [] := by
      rw [h2]; exact List.mem_append_right _ (List.mem_singleton.mpr rfl)
    have hsecond : CallsV1.Store m1 a b = (true, m1) := by
      cases hm2 : lookupBy m1 a with
      | none => simp [CallsV1.Load, hm2] at hmem
      | some calls2 =>
          have hb2 : b ∈ calls2 := by simpa [CallsV1.Load, hm2] using hmem
          simp [CallsV1.Store, hm2, hb2]
    rw [hsecond, h2]
    have hcount0 : ((CallsV1.Load m a).getD []).count b = 0 :=
      List.count_eq_zero.mpr hb
    simp [List.count_append, hcount0]

/-- Witness for C3 at a concrete input: on the empty graph, two stores of
the edge `(1, 2)` leave exactly one occurrence of `2` in `Edges(1)`. -/
theorem C3_connect_dedup_witness :
    (2 : Int) ∉ (CallsV1.Load ([] : CallsV1) 1).getD [] ∧
    ((CallsV1.Load (CallsV1.Store (CallsV1.Store ([] : CallsV1) 1 2).2 1 2).2 1).getD []).count 2
      = 1 :=
  ⟨by decide, (C3_connect_dedup [] 1 2).2.2 (by decide)⟩

end Llx

namespace Llx.Exec

/- ### Claims about `runFunction` (C5, C6) -/

/-- **C5** — a function chunk bound to a receiver ref with no cached value
registers a dependency edge from the receiver to the current ref and does
not fail: a new edge returns the receiver as the next ref to run; an
already-existing edge returns no result, no next ref and no error. -/
theorem C5_unbound_receiver_connects (c : LeiseExecutorV1) (st : ExecState)
    (chunk : Chunk) (ref : Int) (f : Function)
    (hf : chunk.function = some f) (hb : f.deprecatedV5Binding ≠ 0)
    (hload : CacheV1.Load st.cache f.deprecatedV5Binding = none) :
    runFunction c st chunk ref =
      ((none,
        (if (CallsV1.Store st.calls f.deprecatedV5Binding ref).1 then 0
         else f.deprecatedV5Binding), none),
       { st with calls := (CallsV1.Store st.calls f.deprecatedV5Binding ref).2 }) := by
  unfold runFunction
  rw [hf]
  simp only [Option.getD_some]
  rw [if_neg hb, hload]
  unfold connectRef
  cases hS : (CallsV1.Store st.calls f.deprecatedV5Binding ref).1 <;> simp [hS]

/-- Witness for C5: a call bound to ref 3 (uncached, unconnected) in the
empty state registers the edge `3 → 7` and asks to rerun ref 3. -/
theorem C5_unbound_receiver_connects_witness :
    runFunction { code := .mk [] [] [] [] [] false, callbackPoints := [(1, "chk1")],
                  createResourceExt := fun _ _ => .error (LErr.err "no provider") }
        {} { call := .function, id := "length",
             function := some { typ := Ty.functionT, deprecatedV5Binding := 3 } } 7 =
      ((none,
        (if (CallsV1.Store ({} : ExecState).calls 3 7).1 then 0 else 3), none),
       { ({} : ExecState) with calls := (CallsV1.Store ({} : ExecState).calls 3 7).2 }) :=
  C5_unbound_receiver_connects
    { code := .mk [] [] [] [] [] false, callbackPoints := [(1, "chk1")],
      createResourceExt := fun _ _ => .error (LErr.err "no provider") }
    {} { call := .function, id := "length",
         function := some { typ := Ty.functionT, deprecatedV5Binding := 3 } } 7
    { typ := Ty.functionT, deprecatedV5Binding := 3 } rfl (by decide) rfl

/-- **C6** — a function chunk whose bound receiver has a cached error
value copies that same result into the cache at the dependent ref and
returns the same error; the dependent chunk's own logic
(`runBoundFunctionV1`) is not consulted. -/
theorem C6_receiver_error_propagates (c : LeiseExecutorV1) (st : ExecState)
    (chunk : Chunk) (ref : Int) (f : Function) (sc : StepCache) (rd : RawData)
    (e : LErr)
    (hf : chunk.function = some f) (hb : f.deprecatedV5Binding ≠ 0)
    (hload : CacheV1.Load st.cache f.deprecatedV5Binding = some sc)
    (hres : sc.Result = some rd) (herr : rd.error = some e) :
    runFunction c st chunk ref =
      ((none, 0, some e),
       { st with cache := CacheV1.Store st.cache ref ⟨some rd, false⟩ }) := by
  unfold runFunction
  rw [hf]
  simp only [Option.getD_some, if_neg hb, hload, hres, herr]

/-- Witness for C6: receiver ref 3 caches an error, the dependent ref 7
receives a copy of that result and the same error. -/
theorem C6_receiver_error_propagates_witness :
    runFunction { code := .mk [] [] [] [] [] false, callbackPoints := [(1, "chk1")],
                  createResourceExt := fun _ _ => .error (LErr.err "no provider") }
        { cache := [(3, ⟨some ⟨Ty.stringT, none, some (LErr.err "bad receiver")⟩, true⟩)] }
        { call := .function, id := "length",
          function := some { typ := Ty.functionT, deprecatedV5Binding := 3 } } 7 =
      ((none, 0, some (LErr.err "bad receiver")),
       { ({ cache := [(3, ⟨some ⟨Ty.stringT, none, some (LErr.err "bad receiver")⟩, true⟩)] } : ExecState) with
          cache := CacheV1.Store
            [(3, ⟨some ⟨Ty.stringT, none, some (LErr.err "bad receiver")⟩, true⟩)] 7
            ⟨some ⟨Ty.stringT, none, some (LErr.err "bad receiver")⟩, false⟩ }) :=
  C6_receiver_error_propagates _ _ _ 7 _ _ _ _ rfl (by decide) rfl rfl rfl

/- ### Claim about the `runBlock` short circuit (C10) -/

/-- **C10** — a block invocation on a non-nil receiver with a nil payload
and a non-Nil type short-circuits to a typed null of the receiver's type:
no next ref, no error, the state untouched, and no child executor spawn
(the sub-program is never invoked). -/
theorem C10_block_short_circuit (c : LeiseExecutorV1) (st : ExecState)
    (b : RawData) (functionRef : Primitive) (args : List Primitive) (ref : Int)
    (hv : b.value = none) (ht : b.typ ≠ Ty.nilT) :
    runBlock c st (some b) functionRef args ref =
      (((some ⟨b.typ, none, none⟩, 0, none), st), none) := by
  unfold runBlock
  simp [hv, ht]

/-- Witness for C10: a resource-typed receiver with nil payload
short-circuits a block call to a typed null. -/
theorem C10_block_short_circuit_witness :
    runBlock { code := .mk [] [] [] [] [] false, callbackPoints := [(1, "chk1")],
               createResourceExt := fun _ _ => .error (LErr.err "no provider") }
        {} (some ⟨Ty.resource "sshd.config", none, none⟩)
        { typ := Ty.functionT, refv := some 1 } [] 2 =
      (((some ⟨Ty.resource "sshd.config", none, none⟩, 0, none), ({} : ExecState)), none) :=
  C10_block_short_circuit _ _ _ _ [] 2 rfl (by simp [RawData.typ])

/- ### Claim about block aggregation (C7) -/

theorem insertOrReplace_length_of_lookup {α β : Type} [DecidableEq α]
    (m : List (α × β)) (k : α) (v : β) (h : (lookupBy m k).isSome = true) :
    (insertOrReplace m k v).length = m.length := by
  induction m with
  | nil => simp [lookupBy] at h
  | cons p rest ih =>
      obtain ⟨k', v'⟩ := p
      by_cases hk : k' = k
      · simp [insertOrReplace, hk]
      · simp only [lookupBy, if_neg hk] at h
        simp [insertOrReplace, hk, ih h]

/-- **C7** — multi-value block aggregation: a duplicate codeID overwrites
its map entry without growing the count; the composite resolves exactly
when the count of distinct codeIDs equals entrypoints+datapoints of the
sub-program (otherwise nothing is cached and no chain is triggered); on
resolution the composite block value — carrying the final field map and
the accumulated error — is cached as static at the parent ref and handed
to `triggerChain`, and a resource receiver is included under the reserved
key "_". -/
theorem C7_block_aggregation (fn : CodeV1) (bind : Option RawData) (ref : Int)
    (blockResult : List (String × Option RawData)) (anyError : Option LErr)
    (cache : CacheV1) (res : RawResult)
    (hsv : fn.SingleValue = false) :
    ((lookupBy blockResult res.CodeID).isSome = true →
      (insertOrReplace blockResult res.CodeID res.Data).length = blockResult.length) ∧
    ((insertOrReplace blockResult res.CodeID res.Data).length ≠
        fn.Entrypoints.length + fn.Datapoints.length →
      (runBlockCb fn bind ref blockResult anyError cache res).2.2.1 = cache ∧
      (runBlockCb fn bind ref blockResult anyError cache res).2.2.2 = none) ∧
    ((insertOrReplace blockResult res.CodeID res.Data).length =
        fn.Entrypoints.length + fn.Datapoints.length →
      (CacheV1.Load (runBlockCb fn bind ref blockResult anyError cache res).2.2.1 ref =
        some ⟨some ⟨Ty.block,
          some (Val.blockMap (runBlockCb fn bind ref blockResult anyError cache res).1),
          (runBlockCb fn bind ref blockResult anyError cache res).2.1⟩, true⟩) ∧
      ((runBlockCb fn bind ref blockResult anyError cache res).2.2.2 =
        some (some ⟨Ty.block,
          some (Val.blockMap (runBlockCb fn bind ref blockResult anyError cache res).1),
          (runBlockCb fn bind ref blockResult anyError cache res).2.1⟩)) ∧
      (∀ b rr, bind = some b → b.typ.isResource = true →
        b.value = some (Val.resource rr) →
        lookupBy (runBlockCb fn bind ref blockResult anyError cache res).1 "_" =
          some (some ⟨b.typ, some (Val.resource rr), none⟩))) := by
  refine ⟨fun h => insertOrReplace_length_of_lookup _ _ _ h, ?_, ?_⟩
  · intro h
    unfold runBlockCb
    simp only [hsv, Bool.false_eq_true, if_false, if_neg h]
    exact ⟨trivial, trivial⟩
  · intro h
    unfold runBlockCb
    simp only [hsv, Bool.false_eq_true, if_false, if_pos h]
    refine ⟨?_, ?_, ?_⟩
    · simp [CacheV1.Load, CacheV1.Store, lookupBy]
    · first
      | rfl
      | trivial
    · intro b rr hbind htyp hval
      subst hbind
      simp only [htyp, if_pos rfl, hval]
      simp [lookupBy_insertOrReplace_self]

/-- Witness for C7 at a concrete input: a sub-program expecting two
codeIDs resolves once "a" and "b" were both recorded, and the resource
receiver appears under "_". -/
theorem C7_block_aggregation_witness :
    (insertOrReplace ([("a", some ⟨Ty.intT, some (Val.intV 1), none⟩)] :
        List (String × Option RawData)) "b"
        (some ⟨Ty.intT, some (Val.intV 2), none⟩)).length = 2 ∧
    lookupBy (runBlockCb (.mk [] [1] [2] [] [] false)
        (some ⟨Ty.resource "pkg", some (Val.resource "pkg-1"), none⟩) 5
        [("a", some ⟨Ty.intT, some (Val.intV 1), none⟩)] none []
        ⟨some ⟨Ty.intT, some (Val.intV 2), none⟩, "b"⟩).1 "_" =
      some (some ⟨Ty.resource "pkg", some (Val.resource "pkg-1"), none⟩) :=
  ⟨rfl,
   ((C7_block_aggregation (.mk [] [1] [2] [] [] false)
      (some ⟨Ty.resource "pkg", some (Val.resource "pkg-1"), none⟩) 5
      [("a", some ⟨Ty.intT, some (Val.intV 1), none⟩)] none []
      ⟨some ⟨Ty.intT, some (Val.intV 2), none⟩, "b"⟩ rfl).2.2 rfl).2.2
      (⟨Ty.resource "pkg", some (Val.resource "pkg-1"), none⟩ : RawData) "pkg-1" rfl rfl rfl⟩

/- ### Preservation lemmas for the evaluation functions -/

theorem connectRef_cache (st : ExecState) (src dst : Int) :
    (connectRef st src dst).2.cache = st.cache := by
  unfold connectRef
  dsimp only
  split <;> rfl

theorem resolveValue_cache (st : ExecState) (prim : Primitive) (ref : Int) :
    (resolveValue st prim ref).2.cache = st.cache := by
  unfold resolveValue
  split
  · split
    · split <;> rfl
    · exact connectRef_cache _ _ _
  · rfl

theorem args2resourceargsV1_cache (ref : Int) (ps : List Primitive) :
    ∀ st : ExecState, (args2resourceargsV1 st ref ps).2.cache = st.cache := by
  induction ps with
  | nil => intro st; rfl
  | cons p rest ih =>
      intro st
      unfold args2resourceargsV1
      dsimp only
      split
      · next heq =>
          rw [ih]
          exact resolveValue_cache st p ref
      · exact resolveValue_cache st p ref

/- ### Claim C1: not-ready errors in the chain walk -/

/-- **C1 (amended)** — a not-ready evaluation error is never cached: the
chain walk leaves the cache (and the step tracker and dependency graph)
untouched, so a later retry can succeed, and `createResource` skips its
error store; but the chain walk does deliver the not-ready error to the
callback when the ref has a callback-record entry (only a ref without a
callback-record entry produces zero callback invocations). -/
theorem C1_not_ready_silent_amended (c : LeiseExecutorV1) (st : ExecState)
    (curRef : Int) (e : LErr) (he : e.isNotReady = true) :
    ((runChainCallbacks c st curRef none (some e)).cache = st.cache ∧
     (runChainCallbacks c st curRef none (some e)).stepTracker = st.stepTracker ∧
     (runChainCallbacks c st curRef none (some e)).calls = st.calls ∧
     (runChainCallbacks c st curRef none (some e)).callbacks =
       st.callbacks ++ (match lookupBy c.callbackPoints curRef with
         | some codeID => [errorResult e codeID]
         | none => [])) ∧
    (∀ (name : String) (f : Function) (ref : Int) (argsv : List RawData)
        (st1 : ExecState),
      args2resourceargsV1 st ref f.args = ((argsv, 0, none), st1) →
      c.createResourceExt name argsv = .error e →
      createResource c st name f ref = ((none, 0, some e), st1) ∧
      st1.cache = st.cache) := by
  constructor
  · unfold runChainCallbacks
    dsimp only
    cases hcp : lookupBy c.callbackPoints curRef <;>
      simp [hcp, he]
  · intro name f ref argsv st1 hargs hext
    constructor
    · unfold createResource
      rw [hargs]
      dsimp only
      rw [hext]
      simp [he]
    · have := args2resourceargsV1_cache ref f.args st
      rw [hargs] at this
      exact this

/-- Witness for C1 (amended) at a concrete input. -/
theorem C1_not_ready_silent_amended_witness :
    (runChainCallbacks
        { code := .mk [] [] [] [] [] false, callbackPoints := [(1, "chk1")],
          createResourceExt := fun _ _ => .error (LErr.notReadyErr "resource not ready") }
        {} 1 none (some (LErr.notReadyErr "resource not ready"))).cache = ({} : ExecState).cache ∧
    (runChainCallbacks
        { code := .mk [] [] [] [] [] false, callbackPoints := [(1, "chk1")],
          createResourceExt := fun _ _ => .error (LErr.notReadyErr "resource not ready") }
        {} 1 none (some (LErr.notReadyErr "resource not ready"))).callbacks =
      ({} : ExecState).callbacks ++ [errorResult (LErr.notReadyErr "resource not ready") "chk1"] :=
  by
    have h := C1_not_ready_silent_amended
      { code := .mk [] [] [] [] [] false, callbackPoints := [(1, "chk1")],
        createResourceExt := fun _ _ => .error (LErr.notReadyErr "resource not ready") }
      {} 1 (LErr.notReadyErr "resource not ready") rfl
    exact ⟨h.1.1, h.1.2.2.2⟩

/-- The compiled program used by the C1 counterexample: one
resource-creation chunk, entrypoint ref 1 with codeID "chk1", a provider
that reports not-ready. -/
def cexC1 : LeiseExecutorV1 :=
  { code := .mk [some { call := .function, id := "host", function := some {} }]
      [1] [] [(1, "chk1")] [] false,
    callbackPoints := [(1, "chk1")],
    createResourceExt := fun _ _ => .error (LErr.notReadyErr "resource not ready") }

/-- Counterexample to **C1 as stated**: walking the chain of a chunk whose
evaluation returns a not-ready error leaves the cache empty, but produces
one callback invocation for the ref (the claim asserts zero). -/
theorem C1_not_ready_silent_counterexample :
    (runChain cexC1 2 {} 1).callbacks =
      [errorResult (LErr.notReadyErr "resource not ready") "chk1"] ∧
    CacheV1.Load (runChain cexC1 2 {} 1).cache 1 = none :=
  ⟨rfl, rfl⟩

/- ### Claim C2: hard evaluation errors are cached and delivered -/

/-- **C2 (amended)** — a hard (non-not-ready) evaluation error is cached
at the owning ref and delivered exactly once to the callback when the ref
has a callback-record entry.  The chain walk caches it as a *non-static*
error value and only when no entry is already cached at the ref; a
resource-creation hard failure has already been cached by
`createResource` as a *static* error value (an unconditional store). -/
theorem C2_hard_error_cached_amended (c : LeiseExecutorV1) (st : ExecState)
    (curRef : Int) (e : LErr) (he : e.isNotReady = false) :
    ((CacheV1.Load st.cache curRef = none →
       (runChainCallbacks c st curRef none (some e)).cache =
         CacheV1.Store st.cache curRef ⟨some ⟨Ty.unset, none, some e⟩, false⟩) ∧
     (∀ sc, CacheV1.Load st.cache curRef = some sc →
       (runChainCallbacks c st curRef none (some e)).cache = st.cache) ∧
     (runChainCallbacks c st curRef none (some e)).callbacks =
       st.callbacks ++ (match lookupBy c.callbackPoints curRef with
         | some codeID => [errorResult e codeID]
         | none => [])) ∧
    (∀ (name : String) (f : Function) (ref : Int) (argsv : List RawData)
        (st1 : ExecState),
      args2resourceargsV1 st ref f.args = ((argsv, 0, none), st1) →
      c.createResourceExt name argsv = .error e →
      createResource c st name f ref = ((none, 0, some e),
        { st1 with cache :=
            CacheV1.Store st1.cache ref ⟨some ⟨Ty.resource name, none, some e⟩, true⟩ })) := by
  constructor
  · refine ⟨?_, ?_, ?_⟩
    · intro hnone
      unfold runChainCallbacks
      dsimp only
      cases hcp : lookupBy c.callbackPoints curRef <;>
        simp [hcp, he, hnone]
    · intro sc hsc
      unfold runChainCallbacks
      dsimp only
      cases hcp : lookupBy c.callbackPoints curRef <;>
        simp [hcp, he, hsc]
    · unfold runChainCallbacks
      dsimp only
      cases hcp : lookupBy c.callbackPoints curRef <;>
        cases hload : CacheV1.Load st.cache curRef <;>
        simp [hcp, he, hload]
  · intro name f ref argsv st1 hargs hext
    unfold createResource
    rw [hargs]
    dsimp only
    rw [hext]
    simp [he]

/-- Witness for C2 (amended) at a concrete input: the chain walk caches a
hard error non-statically when nothing is cached at the ref. -/
theorem C2_hard_error_cached_amended_witness :
    (runChainCallbacks
        { code := .mk [] [] [] [] [] false, callbackPoints := [(1, "c2")],
          createResourceExt := fun _ _ => .error (LErr.err "x") }
        {} 1 none (some (LErr.err "boom"))).cache =
      CacheV1.Store ({} : ExecState).cache 1
        ⟨some ⟨Ty.unset, none, some (LErr.err "boom")⟩, false⟩ :=
  (C2_hard_error_cached_amended
    { code := .mk [] [] [] [] [] false, callbackPoints := [(1, "c2")],
      createResourceExt := fun _ _ => .error (LErr.err "x") }
    {} 1 (LErr.err "boom") rfl).1.1 rfl

/-- The compiled program used by the C2 counterexample: one property
chunk referring to a property name that is not bound. -/
def cexC2 : LeiseExecutorV1 :=
  { code := .mk [some { call := .property, id := "foo" }] [1] [] [(1, "c2")] [] false,
    callbackPoints := [(1, "c2")],
    createResourceExt := fun _ _ => .error (LErr.err "x") }

/-- Counterexample to **C2 as stated**: an unknown-property evaluation
error is cached by the chain walk with `IsStatic = false`, not as a
static (`isStatic=true`) error value as the claim asserts; the error is
still delivered once to the callback. -/
theorem C2_hard_error_cached_counterexample :
    (CacheV1.Load (runChain cexC2 2 {} 1).cache 1).map (fun sc => sc.IsStatic) =
      some false ∧
    (runChain cexC2 2 {} 1).callbacks =
      [errorResult (LErr.err "cannot find property 'foo'") "c2"] :=
  ⟨rfl, rfl⟩

/- ### Claim C8: callback delivery per trigger -/

/-- **C8 (amended)** — for a ref with a callback-record entry, one
`triggerChain` invocation delivers the reported value to the callback
once; when the ref has *no* dependency-graph entry, the cached value is
delivered a second time (re-read from the cache) — so a single trigger
delivers the same value twice for the same ref whenever the cached value
equals the reported one.  (Only when dependents exist is delivery limited
to the single report before the dependent chains re-run.) -/
theorem C8_trigger_delivery_amended (c : LeiseExecutorV1) (fuel : Nat)
    (st : ExecState) (ref : Int) (data : Option RawData) (sc : StepCache)
    (cid : String)
    (hcp : lookupBy c.callbackPoints ref = some cid)
    (hcalls : CallsV1.Load st.calls ref = none)
    (hcache : CacheV1.Load st.cache ref = some sc) :
    triggerChain c fuel st ref data =
      { st with callbacks := st.callbacks ++ [⟨data, cid⟩, ⟨sc.Result, cid⟩] } := by
  unfold triggerChain
  simp only [hcp]
  have hcalls1 : CallsV1.Load
      ({ st with callbacks := st.callbacks ++ [⟨data, cid⟩] } : ExecState).calls ref = none :=
    hcalls
  have hcache1 : CacheV1.Load
      ({ st with callbacks := st.callbacks ++ [⟨data, cid⟩] } : ExecState).cache ref = some sc :=
    hcache
  rw [hcalls1, hcache1]
  simp [hcp]

/-- Witness for C8 (amended) at a concrete input. -/
theorem C8_trigger_delivery_amended_witness :
    triggerChain
      { code := .mk [] [] [] [] [] false, callbackPoints := [(1, "id")],
        createResourceExt := fun _ _ => .error (LErr.err "x") }
      1 { cache := [(1, ⟨some ⟨Ty.intT, some (Val.intV 5), none⟩, true⟩)] } 1
      (some ⟨Ty.intT, some (Val.intV 5), none⟩) =
    { ({ cache := [(1, ⟨some ⟨Ty.intT, some (Val.intV 5), none⟩, true⟩)] } : ExecState) with
      callbacks := ({ cache := [(1, ⟨some ⟨Ty.intT, some (Val.intV 5), none⟩, true⟩)] } : ExecState).callbacks ++
        [⟨some ⟨Ty.intT, some (Val.intV 5), none⟩, "id"⟩,
         ⟨some ⟨Ty.intT, some (Val.intV 5), none⟩, "id"⟩] } :=
  C8_trigger_delivery_amended
    { code := .mk [] [] [] [] [] false, callbackPoints := [(1, "id")],
      createResourceExt := fun _ _ => .error (LErr.err "x") }
    1 { cache := [(1, ⟨some ⟨Ty.intT, some (Val.intV 5), none⟩, true⟩)] } 1
    (some ⟨Ty.intT, some (Val.intV 5), none⟩)
    ⟨some ⟨Ty.intT, some (Val.intV 5), none⟩, true⟩ "id" rfl rfl rfl

/-- Counterexample to **C8 as stated**: one `triggerChain` invocation on a
callback-point ref with no dependents and a static cached value delivers
the same value for the same ref twice within the single trigger (the
claim asserts this never occurs). -/
theorem C8_trigger_delivery_counterexample :
    (triggerChain
        { code := .mk [] [] [] [] [] false, callbackPoints := [(1, "id")],
          createResourceExt := fun _ _ => .error (LErr.err "x") }
        1 { cache := [(1, ⟨some ⟨Ty.intT, some (Val.intV 5), none⟩, true⟩)] } 1
        (some ⟨Ty.intT, some (Val.intV 5), none⟩)).callbacks =
      [⟨some ⟨Ty.intT, some (Val.intV 5), none⟩, "id"⟩,
       ⟨some ⟨Ty.intT, some (Val.intV 5), none⟩, "id"⟩] :=
  rfl

/- ### Claim C9: teardown -/

mutual
/-- Helper for C9: `Unregister` returns the fixed generic error exactly
when some teardown step failed, and decommissions every callback in the
tree. -/
theorem Unregister_spec (t : ExecNode) :
    (Unregister t).2 = (if anyFailure t then
      some (LErr.err "multiple errors unregistering") else none) ∧
    allDecommissioned (Unregister t).1 = true := by
  match t with
  | .mk d ws children =>
      have hl := UnregisterList_spec children
      constructor
      · show (if ((UnregisterList children).2 ++ ws.filterMap (·.2)).length > 0 then
            some (LErr.err "multiple errors unregistering") else none) = _
        have hfail : anyFailure (.mk d ws children) =
            (anyFailureList children || ws.any (fun p => p.2.isSome)) := rfl
        rw [hfail]
        by_cases hc : anyFailureList children = true
        · have hne : (UnregisterList children).2 ≠ [] := by
            intro hnil
            have hf := hl.1.mp hnil
            rw [hf] at hc
            exact Bool.noConfusion hc
          have hlen : ((UnregisterList children).2 ++ ws.filterMap (·.2)).length > 0 := by
            have := List.length_pos.mpr hne
            simp only [List.length_append]
            omega
          rw [if_pos hlen, hc]
          simp
        · have hc' : anyFailureList children = false := by
            simpa using hc
          have hnil : (UnregisterList children).2 = [] := hl.1.mpr hc'
          rw [hnil]
          by_cases hw : ws.any (fun p => p.2.isSome) = true
          · have hne : ws.filterMap (·.2) ≠ [] := by
              rw [List.any_eq_true] at hw
              obtain ⟨p, hp, hps⟩ := hw
              intro hnilw
              rw [List.filterMap_eq_nil_iff] at hnilw
              rw [hnilw p hp] at hps
              simp at hps
            have hlen : (([] : List LErr) ++ ws.filterMap (·.2)).length > 0 := by
              have := List.length_pos.mpr hne
              simpa using this
            rw [if_pos hlen, hc', hw]
            simp
          · have hw' : ws.any (fun p => p.2.isSome) = false := by
              simpa using hw
            have hnilw : ws.filterMap (·.2) = [] := by
              rw [List.filterMap_eq_nil_iff]
              intro p hp
              by_contra hne
              have hps : (p.2).isSome = true := by
                cases h2 : p.2 with
                | none => exact absurd h2 hne
                | some _ => rfl
              have hany : ws.any (fun p => p.2.isSome) = true :=
                List.any_eq_true.mpr ⟨p, hp, hps⟩
              rw [hany] at hw'
              exact Bool.noConfusion hw'
            rw [hnilw]
            simp [hc', hw']
      · show allDecommissioned (.mk true ws (UnregisterList children).1) = true
        show (true && allDecommissionedList (UnregisterList children).1) = true
        simp [hl.2]

/-- Helper for C9, list form: the collected child error list is empty iff
no child teardown failed, and all children get decommissioned (teardown
is attempted for every child regardless of earlier failures). -/
theorem UnregisterList_spec (l : List ExecNode) :
    ((UnregisterList l).2 = [] ↔ anyFailureList l = false) ∧
    allDecommissionedList (UnregisterList l).1 = true := by
  match l with
  | [] => exact ⟨by simp [UnregisterList, anyFailureList], by simp [UnregisterList, allDecommissionedList]⟩
  | c :: cs =>
      have hc := Unregister_spec c
      have hcs := UnregisterList_spec cs
      constructor
      · show ((match (Unregister c).2 with
            | some e => [e]
            | none => []) ++ (UnregisterList cs).2 = [] ↔
          (anyFailure c || anyFailureList cs) = false)
        rw [hc.1]
        by_cases hf : anyFailure c = true
        · simp [hf]
        · simp only [Bool.not_eq_true] at hf
          simp [hf, hcs.1]
      · show allDecommissionedList ((Unregister c).1 :: (UnregisterList cs).1) = true
        show (allDecommissioned (Unregister c).1 && allDecommissionedList (UnregisterList cs).1) = true
        simp [hc.2, hcs.2]
end

/-- **C9 (amended)** — `Unregister` replaces the callback with a no-op on
every executor of the tree (children are still torn down after earlier
failures), and returns a non-nil error exactly when at least one child
teardown or watch cancellation failed; the returned error is the fixed
generic "multiple errors unregistering" — the individual errors are only
logged, not merged into it. -/
theorem C9_unregister_amended (t : ExecNode) :
    (Unregister t).2 = (if anyFailure t then
      some (LErr.err "multiple errors unregistering") else none) ∧
    allDecommissioned (Unregister t).1 = true :=
  ⟨(Unregister_spec t).1, (Unregister_spec t).2⟩

/-- Counterexample to **C9 as stated**: with a watch cancellation failing
with "disk failure", the returned error is the fixed generic error; it is
not the merge of the errors encountered — in particular it differs from
the multierror merge of the single collected error, and a teardown
failing with a completely different error returns the identical value. -/
theorem C9_unregister_counterexample :
    (Unregister (.mk false [("w", some (LErr.err "disk failure"))] [])).2 =
      some (LErr.err "multiple errors unregistering") ∧
    (Unregister (.mk false [("w", some (LErr.err "disk failure"))] [])).2 =
      (Unregister (.mk false [("w2", some (LErr.err "network failure"))] [])).2 ∧
    some (LErr.err "multiple errors unregistering") ≠
      some (multierrorAppend none (LErr.err "disk failure")) :=
  ⟨rfl, rfl, fun h => by
    rw [multierrorAppend] at h
    exact LErr.noConfusion (Option.some.inj h)⟩

/- ### Claim C4: Run idempotence via the step tracker -/

theorem connectRef_stepTracker (st : ExecState) (src dst : Int) :
    (connectRef st src dst).2.stepTracker = st.stepTracker := by
  unfold connectRef
  dsimp only
  split <;> rfl

theorem resolveValue_stepTracker (st : ExecState) (prim : Primitive) (ref : Int) :
    (resolveValue st prim ref).2.stepTracker = st.stepTracker := by
  unfold resolveValue
  split
  · split
    · split <;> rfl
    · exact connectRef_stepTracker _ _ _
  · rfl

theorem args2resourceargsV1_stepTracker (ref : Int) (ps : List Primitive) :
    ∀ st : ExecState, (args2resourceargsV1 st ref ps).2.stepTracker = st.stepTracker := by
  induction ps with
  | nil => intro st; rfl
  | cons p rest ih =>
      intro st
      unfold args2resourceargsV1
      dsimp only
      split
      · rw [ih]
        exact resolveValue_stepTracker st p ref
      · exact resolveValue_stepTracker st p ref

theorem createResource_stepTracker (c : LeiseExecutorV1) (st : ExecState)
    (name : String) (f : Function) (ref : Int) :
    (createResource c st name f ref).2.stepTracker = st.stepTracker := by
  unfold createResource
  dsimp only
  have h := args2resourceargsV1_stepTracker ref f.args st
  split
  · exact h
  · split
    · split <;> simp_all
    · simp_all

theorem runGlobalFunction_stepTracker (c : LeiseExecutorV1) (st : ExecState)
    (chunk : Chunk) (f : Function) (ref : Int) :
    (runGlobalFunction c st chunk f ref).2.stepTracker = st.stepTracker := by
  unfold runGlobalFunction
  split
  · rfl
  · dsimp only
    split <;> rfl
  · exact createResource_stepTracker _ _ _ _ _

theorem runFunction_stepTracker (c : LeiseExecutorV1) (st : ExecState)
    (chunk : Chunk) (ref : Int) :
    (runFunction c st chunk ref).2.stepTracker = st.stepTracker := by
  unfold runFunction
  dsimp only
  split
  · exact runGlobalFunction_stepTracker _ _ _ _ _
  · split
    · exact connectRef_stepTracker _ _ _
    · split
      · rfl
      · split <;> rfl

theorem runChunk_stepTracker (c : LeiseExecutorV1) (st : ExecState)
    (chunk : Chunk) (ref : Int) :
    (runChunk c st chunk ref).2.stepTracker = st.stepTracker := by
  unfold runChunk
  split
  · dsimp only
    have h := resolveValue_stepTracker st (chunk.primitive.getD ⟨Ty.empty, none, none⟩) ref
    split <;> simp_all
    split <;> simp_all
  · exact runFunction_stepTracker _ _ _ _
  · split
    · rfl
    · dsimp only
      next property _ =>
        have h := resolveValue_stepTracker st property ref
        split
        · exact h
        · exact h

theorem runRef_stepTracker (c : LeiseExecutorV1) (st : ExecState) (ref : Int) :
    (runRef c st ref).2.stepTracker = st.stepTracker := by
  unfold runRef
  split
  · exact runChunk_stepTracker _ _ _ _
  · rfl

theorem runStepEval_stepTracker (c : LeiseExecutorV1) (st : ExecState) (ref : Int) :
    (runStepEval c st ref).2.stepTracker = st.stepTracker := by
  unfold runStepEval
  split
  · rfl
  · exact runRef_stepTracker _ _ _

theorem runChainCallbacks_stepTracker (c : LeiseExecutorV1) (st : ExecState)
    (curRef : Int) (res : Option RawData) (err : Option LErr) :
    (runChainCallbacks c st curRef res err).stepTracker = st.stepTracker := by
  unfold runChainCallbacks
  split
  · split <;> rfl
  · split
    · dsimp only
      split
      · split <;> rfl
      · split
        · split <;> rfl
        · split <;> rfl
    · rfl

/-- The chain-walk loop only ever adds refs to the step tracker. -/
theorem runChainLoop_tracker_mono (c : LeiseExecutorV1) :
    ∀ (fuel : Nat) (st : ExecState) (n : Int) (rem : List Int) (x : Int),
      x ∈ st.stepTracker → x ∈ (runChainLoop c fuel st n rem).stepTracker := by
  intro fuel
  induction fuel with
  | zero => intro st n rem x hx; exact hx
  | succ fuel ih =>
      intro st n rem x hx
      rw [runChainLoop]
      by_cases h0 : n = 0
      · rw [if_pos h0]; exact hx
      · rw [if_neg h0]
        dsimp only
        rcases hout : runStepEval c { st with stepTracker := n :: st.stepTracker } n
          with ⟨⟨res, nref, err⟩, st2⟩
        have h2 : st2.stepTracker = n :: st.stepTracker := by
          have := runStepEval_stepTracker c { st with stepTracker := n :: st.stepTracker } n
          rw [hout] at this
          exact this
        have hx2 : x ∈ st2.stepTracker := by
          rw [h2]; exact List.mem_cons_of_mem _ hx
        dsimp only
        by_cases hsilent : res.isNone ∧ nref = 0 ∧ err.isNone
        · rw [if_pos hsilent]; exact hx2
        · rw [if_neg hsilent]
          have hx3 : x ∈ (runChainCallbacks c st2 n res err).stepTracker := by
            rw [runChainCallbacks_stepTracker]; exact hx2
          by_cases hnref : nref ≠ 0
          · rw [if_pos hnref]; exact ih _ _ _ _ hx3
          · rw [if_neg hnref]
            rcases hcl : (CallsV1.Load (runChainCallbacks c st2 n res err).calls n).getD []
              with _ | ⟨m, rest⟩
            · rcases hrem : rem with _ | ⟨r, rs⟩
              · exact hx3
              · exact ih _ _ _ _ hx3
            · exact ih _ _ _ _ hx3

/-- Entering the chain walk at a non-zero ref marks it in the step
tracker (the mark happens in the first iteration, before evaluation). -/
theorem runChain_marks (c : LeiseExecutorV1) (fuel : Nat) (st : ExecState)
    (start : Int) (hfuel : 1 ≤ fuel) (h0 : start ≠ 0) :
    start ∈ (runChain c fuel st start).stepTracker := by
  unfold runChain
  obtain ⟨fuel', rfl⟩ : ∃ f, fuel = f + 1 := by
    cases fuel with
    | zero => omega
    | succ f => exact ⟨f, rfl⟩
  rw [runChainLoop]
  rw [if_neg h0]
  dsimp only
  rcases hout : runStepEval c { st with stepTracker := start :: st.stepTracker } start
    with ⟨⟨res, nref, err⟩, st2⟩
  have h2 : st2.stepTracker = start :: st.stepTracker := by
    have := runStepEval_stepTracker c { st with stepTracker := start :: st.stepTracker } start
    rw [hout] at this
    exact this
  have hx2 : start ∈ st2.stepTracker := by rw [h2]; exact List.mem_cons_self _ _
  dsimp only
  by_cases hsilent : res.isNone ∧ nref = 0 ∧ err.isNone
  · rw [if_pos hsilent]; exact hx2
  · rw [if_neg hsilent]
    have hx3 : start ∈ (runChainCallbacks c st2 start res err).stepTracker := by
      rw [runChainCallbacks_stepTracker]; exact hx2
    by_cases hnref : nref ≠ 0
    · rw [if_pos hnref]; exact runChainLoop_tracker_mono c _ _ _ _ _ hx3
    · rw [if_neg hnref]
      rcases hcl : (CallsV1.Load (runChainCallbacks c st2 start res err).calls start).getD []
        with _ | ⟨m, rest⟩
      · exact hx3
      · exact runChainLoop_tracker_mono c _ _ _ _ _ hx3

theorem runEntry_tracker_mono (c : LeiseExecutorV1) (fuel : Nat)
    (s : ExecState) (ref x : Int) (hx : x ∈ s.stepTracker) :
    x ∈ (runEntry c fuel s ref).stepTracker := by
  unfold runEntry
  split
  · exact hx
  · exact runChainLoop_tracker_mono c _ _ _ _ _ hx

theorem runEntry_marks (c : LeiseExecutorV1) (fuel : Nat) (s : ExecState)
    (ref : Int) (hfuel : 1 ≤ fuel) (h0 : ref ≠ 0) :
    ref ∈ (runEntry c fuel s ref).stepTracker := by
  unfold runEntry
  split
  · next h => exact h
  · exact runChain_marks c fuel s ref hfuel h0

theorem foldl_runEntry_mono (c : LeiseExecutorV1) (fuel : Nat) :
    ∀ (l : List Int) (s : ExecState) (x : Int), x ∈ s.stepTracker →
      x ∈ (l.foldl (runEntry c fuel) s).stepTracker := by
  intro l
  induction l with
  | nil => intro s x hx; exact hx
  | cons r rs ih =>
      intro s x hx
      exact ih _ _ (runEntry_tracker_mono c fuel s r x hx)

theorem foldl_runEntry_marks (c : LeiseExecutorV1) (fuel : Nat)
    (hfuel : 1 ≤ fuel) :
    ∀ (l : List Int) (s : ExecState) (r : Int), r ∈ l → r ≠ 0 →
      r ∈ (l.foldl (runEntry c fuel) s).stepTracker := by
  intro l
  induction l with
  | nil => intro s r hr; exact absurd hr (List.not_mem_nil r)
  | cons a rs ih =>
      intro s r hr h0
      rcases List.mem_cons.mp hr with h | h
      · subst h
        exact foldl_runEntry_mono c fuel rs _ r (runEntry_marks c fuel s r hfuel h0)
      · exact ih _ r h h0

theorem foldl_runEntry_skip_all (c : LeiseExecutorV1) (fuel : Nat) :
    ∀ (l : List Int) (s : ExecState), (∀ r ∈ l, r ∈ s.stepTracker) →
      l.foldl (runEntry c fuel) s = s := by
  intro l
  induction l with
  | nil => intro s _; rfl
  | cons a rs ih =>
      intro s h
      have ha : a ∈ s.stepTracker := h a (List.mem_cons_self _ _)
      have hstep : runEntry c fuel s a = s := by
        unfold runEntry
        rw [if_pos ha]
      rw [List.foldl_cons, hstep]
      exact ih s (fun r hr => h r (List.mem_cons_of_mem _ hr))

theorem sortDescInsert_mem (x r : Int) :
    ∀ l : List Int, r ∈ sortDescInsert x l ↔ r = x ∨ r ∈ l := by
  intro l
  induction l with
  | nil => simp [sortDescInsert]
  | cons y ys ih =>
      by_cases h : y ≤ x
      · simp [sortDescInsert, h, List.mem_cons]
      · simp only [sortDescInsert, if_neg h, List.mem_cons, ih]
        tauto

theorem sortDesc_mem (r : Int) : ∀ l : List Int, r ∈ sortDesc l ↔ r ∈ l := by
  intro l
  induction l with
  | nil => simp [sortDesc]
  | cons x xs ih =>
      simp only [sortDesc, sortDescInsert_mem, ih, List.mem_cons]

/-- **C4** — `Run` and the step tracker: after one `Run` every ref of the
callback record has been entered into (and marked in) the step tracker,
and a second `Run` on the resulting executor state is a no-op — it skips
every ref, so it delivers no callback at all, in particular no duplicate
for a ref already entered in the step-tracker. -/
theorem C4_run_idempotent (c : LeiseExecutorV1) (fuel : Nat) (st : ExecState)
    (hfuel : 1 ≤ fuel)
    (hrefs : ∀ r ∈ c.callbackPoints.map (·.1), r ≠ 0) :
    (∀ r ∈ c.callbackPoints.map (·.1), r ∈ (Run c fuel st).stepTracker) ∧
    Run c fuel (Run c fuel st) = Run c fuel st := by
  have hmarks : ∀ r ∈ c.callbackPoints.map (·.1), r ∈ (Run c fuel st).stepTracker := by
    intro r hr
    unfold Run
    exact foldl_runEntry_marks c fuel hfuel _ st r
      ((sortDesc_mem r _).mpr hr) (hrefs r hr)
  refine ⟨hmarks, ?_⟩
  conv_lhs => unfold Run
  exact foldl_runEntry_skip_all c fuel _ (Run c fuel st)
    (fun r hr => hmarks r ((sortDesc_mem r _).mp hr))

/-- Witness for C4 at a concrete input: a two-entrypoint program whose
second `Run` leaves the state untouched. -/
theorem C4_run_idempotent_witness :
    Run cexC1 2 (Run cexC1 2 {}) = Run cexC1 2 {} :=
  (C4_run_idempotent cexC1 2 {} (by decide) (by
    intro r hr
    have h1 : r = 1 := by simpa [cexC1] using hr
    omega)).2

end Llx.Exec
